import Mathlib

/-
Verification development for the GST reconciliation tool.

The repository ships a React front end (src/frontend/src/App.js and a second,
older copy of the same component tree). The back-end core described by the
design document (ColumnMapper, RecordNormalizer, RecordStore, MatchEngine,
SummaryAggregator, ExportGenerator) is not present in the source tree; the
front end only calls it over HTTP. Definitions below that embed that missing
core are therefore modelled from the design document and carry a doc comment
saying so; definitions embedding the front end are translated from App.js and
cite the function they embed.

Amount fields are modelled as rational numbers: the design document specifies
decimal arithmetic for amounts, tolerances and differences.
-/

namespace GSTRecon

/-- ASCII uppercase of a string, acting on its character list. Models the
JavaScript toUpperCase calls in App.js on the character data of a string. -/
def strUpper (s : String) : String := String.mk (s.data.map Char.toUpper)

/-- Trim of leading and trailing spaces, acting on the character list. Models
the JavaScript trim calls in App.js for the space-separated inputs considered
here. -/
def strTrim (s : String) : String :=
  String.mk (((s.data.dropWhile (fun c => c = ' ')).reverse.dropWhile
    (fun c => c = ' ')).reverse)

/-- Modelled from the spec, section 3: the record-type partition tag. -/
inductive RecordType
  | BOOKS
  | TWO_B
deriving DecidableEq, Repr

/-- Calendar date without a time component, as required by the data model. -/
structure CalendarDate where
  year : Nat
  month : Nat
  day : Nat
deriving DecidableEq, Repr

/-- Modelled from the spec, section 3: the canonical InvoiceRecord that the
missing back end stores after ingestion. The derived field
match_key_fragment is computed at ingestion time; total_tax is derived below
and never stored. -/
structure InvoiceRecord where
  record_type : RecordType
  gstin : String
  invoice_number : String
  match_key_fragment : String
  invoice_date : CalendarDate
  invoice_amount : ℚ
  cgst : ℚ
  sgst : ℚ
  igst : ℚ
  vendor_name : String
deriving DecidableEq, Repr

/-- Modelled from the spec, section 3: total_tax is always recomputed as
cgst + sgst + igst, never trusted from source input. -/
def total_tax (r : InvoiceRecord) : ℚ := r.cgst + r.sgst + r.igst

/-- Modelled from the spec, section 3: MatchKey is the pair of gstin and
match_key_fragment. -/
abbrev MatchKey := String × String

/-- The MatchKey of a record. -/
def matchKey (r : InvoiceRecord) : MatchKey := (r.gstin, r.match_key_fragment)

/-- Modelled from the spec, section 3: the five match statuses. -/
inductive MatchStatus
  | MATCHED
  | AMOUNT_MISMATCH
  | TAX_MISMATCH
  | UNMATCHED_BOOKS
  | UNMATCHED_2B
deriving DecidableEq, Repr

/-- Modelled from the spec, section 3: the outcome of reconciling one Books
record, one 2B record, or a lone unmatched record. -/
structure MatchResult where
  match_status : MatchStatus
  gstin : String
  invoice_number : String
  books_record : Option InvoiceRecord
  twob_record : Option InvoiceRecord
  invoice_amount_diff : ℚ
  cgst_diff : ℚ
  sgst_diff : ℚ
  igst_diff : ℚ
  total_tax_diff : ℚ
deriving DecidableEq, Repr

/-- Modelled from the spec, sections 4.4 and 9: the tolerance constants are
explicit configuration passed into the MatchEngine. -/
structure Tolerances where
  amount_tolerance : ℚ
  tax_tolerance : ℚ
deriving DecidableEq, Repr

/-- Modelled from the spec, section 4.4 step 3: classification of one ordinal
pair of a Books record and a 2B record. Display values are taken from the
Books side; both embedded records are present. -/
def classifyPair (tol : Tolerances) (b t : InvoiceRecord) : MatchResult :=
  let amount_diff : ℚ := |b.invoice_amount - t.invoice_amount|
  let tax_diff : ℚ := |total_tax b - total_tax t|
  { match_status :=
      if amount_diff ≤ tol.amount_tolerance then
        if tax_diff ≤ tol.tax_tolerance then MatchStatus.MATCHED
        else MatchStatus.TAX_MISMATCH
      else MatchStatus.AMOUNT_MISMATCH
    gstin := b.gstin
    invoice_number := b.invoice_number
    books_record := some b
    twob_record := some t
    invoice_amount_diff := amount_diff
    cgst_diff := |b.cgst - t.cgst|
    sgst_diff := |b.sgst - t.sgst|
    igst_diff := |b.igst - t.igst|
    total_tax_diff := tax_diff }

/-- Modelled from the spec, section 4.4 step 4: a Books record beyond the
paired count of its bucket; diffs are 0 for unmatched results. -/
def unmatchedBooks (b : InvoiceRecord) : MatchResult :=
  { match_status := MatchStatus.UNMATCHED_BOOKS
    gstin := b.gstin
    invoice_number := b.invoice_number
    books_record := some b
    twob_record := none
    invoice_amount_diff := 0
    cgst_diff := 0
    sgst_diff := 0
    igst_diff := 0
    total_tax_diff := 0 }

/-- Modelled from the spec, section 4.4 step 4: a surplus 2B record. -/
def unmatched2B (t : InvoiceRecord) : MatchResult :=
  { match_status := MatchStatus.UNMATCHED_2B
    gstin := t.gstin
    invoice_number := t.invoice_number
    books_record := none
    twob_record := some t
    invoice_amount_diff := 0
    cgst_diff := 0
    sgst_diff := 0
    igst_diff := 0
    total_tax_diff := 0 }

/-- Modelled from the spec, section 4.4 step 1: the ordered bucket of records
sharing a key, preserving ingestion order. -/
def bucket (k : MatchKey) (l : List InvoiceRecord) : List InvoiceRecord :=
  l.filter (fun r => matchKey r = k)

/-- First-occurrence deduplication of a key list, with an accumulator of keys
already seen; keeps the iteration over keys deterministic as the spec
requires. -/
def dedupKeysAux (seen : List MatchKey) : List MatchKey → List MatchKey
  | [] => []
  | k :: ks =>
    if k ∈ seen then dedupKeysAux seen ks
    else k :: dedupKeysAux (k :: seen) ks

/-- The keys of a list, each kept once at its first occurrence. -/
def dedupKeys (l : List MatchKey) : List MatchKey := dedupKeysAux [] l

/-- Modelled from the spec, section 4.4 steps 1 and 2: every key present in
either index, in a fixed deterministic order. -/
def allKeys (books twob : List InvoiceRecord) : List MatchKey :=
  dedupKeys (books.map matchKey ++ twob.map matchKey)

/-- Modelled from the spec, section 4.4 steps 2 to 5: for one key, pair the
i-th Books record of the bucket with the i-th 2B record, then emit the
surplus of either side as unmatched, grouped by status. -/
def pairBucket (tol : Tolerances) (bs ts : List InvoiceRecord) :
    List MatchResult :=
  ((bs.zip ts).map (fun q => classifyPair tol q.1 q.2))
    ++ ((bs.drop ts.length).map unmatchedBooks)
    ++ ((ts.drop bs.length).map unmatched2B)

/-- Modelled from the spec, section 4.4: the MatchEngine. The back end
implementing it is not in the source tree; this is the algorithm of steps 1
to 5 applied to the two snapshots. -/
def reconcile (tol : Tolerances) (books twob : List InvoiceRecord) :
    List MatchResult :=
  ((allKeys books twob).map
    (fun k => pairBucket tol (bucket k books) (bucket k twob))).flatten

/-- Modelled from the spec, section 3: the aggregate summary of one run. -/
structure ReconciliationSummary where
  matched_records : Nat
  amount_mismatches : Nat
  tax_mismatches : Nat
  unmatched_books_records : Nat
  unmatched_2b_records : Nat
  total_books_records : Nat
  total_2b_records : Nat
  total_amount_difference : ℚ
  total_tax_difference : ℚ
deriving DecidableEq, Repr

/-- Modelled from the spec, section 4.5: the SummaryAggregator. Per-status
counts, side totals counted as the results referencing a record of that
side, and difference sums over all results. -/
def summarize (results : List MatchResult) : ReconciliationSummary :=
  { matched_records :=
      results.countP (fun r => r.match_status = MatchStatus.MATCHED)
    amount_mismatches :=
      results.countP (fun r => r.match_status = MatchStatus.AMOUNT_MISMATCH)
    tax_mismatches :=
      results.countP (fun r => r.match_status = MatchStatus.TAX_MISMATCH)
    unmatched_books_records :=
      results.countP (fun r => r.match_status = MatchStatus.UNMATCHED_BOOKS)
    unmatched_2b_records :=
      results.countP (fun r => r.match_status = MatchStatus.UNMATCHED_2B)
    total_books_records := results.countP (fun r => r.books_record.isSome)
    total_2b_records := results.countP (fun r => r.twob_record.isSome)
    total_amount_difference := (results.map (fun r => r.invoice_amount_diff)).sum
    total_tax_difference := (results.map (fun r => r.total_tax_diff)).sum }

/-- Modelled from the spec, section 4.3: the target of a clear request. -/
inductive ClearTarget
  | BOOKS
  | TWO_B
  | ALL
deriving DecidableEq, Repr

/-- Modelled from the spec, section 5: the single shared mutable resource of
the missing back end, the RecordStore partitions plus the latest-result slot
and the single-run flag. -/
structure ServerState where
  books : List InvoiceRecord
  twob : List InvoiceRecord
  published : Option (List MatchResult × ReconciliationSummary)
  reconcileInFlight : Bool
deriving DecidableEq, Repr

/-- Modelled from the spec, section 4.3: append one accepted record to its
partition. -/
def appendRecord (rt : RecordType) (r : InvoiceRecord) (s : ServerState) :
    ServerState :=
  match rt with
  | RecordType.BOOKS => { s with books := s.books ++ [r] }
  | RecordType.TWO_B => { s with twob := s.twob ++ [r] }

/-- Modelled from the spec, sections 4.3 and 5: clear is a hard delete that
discards the published result set in the same atomic operation as the
delete. -/
def clearData (t : ClearTarget) (s : ServerState) : ServerState :=
  match t with
  | ClearTarget.BOOKS => { s with books := [], published := none }
  | ClearTarget.TWO_B => { s with twob := [], published := none }
  | ClearTarget.ALL => { s with books := [], twob := [], published := none }

/-- Modelled from the spec, section 6: the response of a reconcile request. -/
inductive ReconcileResponse
  | busy
  | ok (matches_processed : Nat)
deriving DecidableEq, Repr

/-- Modelled from the spec, sections 4.4 item 8, 5 and 6: the reconcile
request handler. A request while a run is in flight fails busy and leaves
the state untouched; otherwise the engine runs on the snapshot and the new
result set and summary are published together. -/
def handleReconcileRequest (tol : Tolerances) (s : ServerState) :
    ReconcileResponse × ServerState :=
  if s.reconcileInFlight then (ReconcileResponse.busy, s)
  else
    let rs := reconcile tol s.books s.twob
    (ReconcileResponse.ok rs.length,
      { s with published := some (rs, summarize rs) })

/-- Modelled from the spec, section 6: one request that mutates the store. -/
inductive ServerOp
  | ingest (rt : RecordType) (r : InvoiceRecord)
  | clear (t : ClearTarget)
  | runReconcile
deriving DecidableEq, Repr

/-- Modelled from the spec, sections 5 and 6: apply one mutation request. -/
def applyOp (tol : Tolerances) (s : ServerState) : ServerOp → ServerState
  | ServerOp.ingest rt r => appendRecord rt r s
  | ServerOp.clear t => clearData t s
  | ServerOp.runReconcile => (handleReconcileRequest tol s).2

/-- Run a sequence of mutation requests from a starting state. -/
def runOps (tol : Tolerances) (s : ServerState) (ops : List ServerOp) :
    ServerState :=
  ops.foldl (applyOp tol) s

/-- Modelled from the spec, section 6: the get-summary reader. -/
def getSummary (s : ServerState) : Option ReconciliationSummary :=
  s.published.map (fun p => p.2)

/-- Modelled from the spec, section 6: the get-matches reader. -/
def getMatches (s : ServerState) : Option (List MatchResult) :=
  s.published.map (fun p => p.1)

/-- Modelled from the spec, section 4.6: the exported document, a summary
section plus the full untruncated detail section. -/
structure ExportDocument where
  summary_section : ReconciliationSummary
  detail_section : List MatchResult
deriving DecidableEq, Repr

/-- Modelled from the spec, section 7: the failure of an export request. -/
inductive ExportFailure
  | exportError
deriving DecidableEq, Repr

/-- Modelled from the spec, sections 4.6 and 6: the ExportGenerator endpoint.
It fails when no reconciliation has completed yet and otherwise builds the
document from the currently published results. -/
def generateExport (s : ServerState) : Except ExportFailure ExportDocument :=
  match s.published with
  | none => Except.error ExportFailure.exportError
  | some p => Except.ok { summary_section := p.2, detail_section := p.1 }

/-- One raw spreadsheet row after column mapping, with each canonical field
holding the raw cell text (empty when the optional column is absent). -/
structure RawRow where
  gstin : String
  invoice_number : String
  invoice_date : String
  invoice_amount : String
  cgst : String
  sgst : String
  igst : String
  vendor_name : String
deriving DecidableEq, Repr

/-- A row-level validation failure, naming the failed field and a reason. -/
structure FieldError where
  field : String
  reason : String
deriving DecidableEq, Repr

/-- The character class the spec allows in a canonical gstin. -/
def isGstinChar (c : Char) : Bool :=
  ('A' ≤ c && c ≤ 'Z') || ('0' ≤ c && c ≤ '9')

/-- Accumulate a digit list into a natural number. -/
def digitsToNat (cs : List Char) : Nat :=
  cs.foldl (fun n c => 10 * n + (c.toNat - '0'.toNat)) 0

/-- Strip currency symbols, thousands separators and spaces before parsing an
amount, as section 4.2 requires. -/
def stripCurrency (s : String) : String :=
  String.mk (s.data.filter (fun c => c ≠ ',' && c ≠ ' ' && c ≠ '₹' && c ≠ '$'))

/-- Parse an unsigned decimal numeral, an integer part with an optional
fraction part. -/
def parseDecimal (s : String) : Option ℚ :=
  let cs := s.data
  let intPart := cs.takeWhile Char.isDigit
  let rest := cs.dropWhile Char.isDigit
  match intPart, rest with
  | [], _ => none
  | _, [] => some (digitsToNat intPart : ℚ)
  | _, '.' :: frac =>
    if frac ≠ [] && frac.all Char.isDigit then
      some (mkRat (digitsToNat intPart * 10 ^ frac.length + digitsToNat frac)
        (10 ^ frac.length))
    else none
  | _, _ => none

/-- Split a character list at every occurrence of a separator character. -/
def splitOnChar (sep : Char) : List Char → List (List Char)
  | [] => [[]]
  | c :: rest =>
    match splitOnChar sep rest with
    | [] => if c = sep then [[], [c]] else [[c]]
    | g :: gs => if c = sep then [] :: g :: gs else (c :: g) :: gs

/-- Range-check a year, month and day triple. -/
def mkDate (y m d : Nat) : Option CalendarDate :=
  if 1 ≤ m && m ≤ 12 && 1 ≤ d && d ≤ 31 then some ⟨y, m, d⟩ else none

/-- ISO year-month-day with dash separators. -/
def parseIsoDate (cs : List Char) : Option CalendarDate :=
  match splitOnChar '-' cs with
  | [y, m, d] =>
    if y.length = 4 && 1 ≤ m.length && m.length ≤ 2 && 1 ≤ d.length
        && d.length ≤ 2 && (y ++ m ++ d).all Char.isDigit then
      mkDate (digitsToNat y) (digitsToNat m) (digitsToNat d)
    else none
  | _ => none

/-- Day-month-year with a given separator. -/
def parseDmyDate (sep : Char) (cs : List Char) : Option CalendarDate :=
  match splitOnChar sep cs with
  | [d, m, y] =>
    if y.length = 4 && 1 ≤ m.length && m.length ≤ 2 && 1 ≤ d.length
        && d.length ≤ 2 && (d ++ m ++ y).all Char.isDigit then
      mkDate (digitsToNat y) (digitsToNat m) (digitsToNat d)
    else none
  | _ => none

/-- Modelled from the spec, section 4.2: date parsing attempts ISO, then
day/month/year, then day-month-year. Spreadsheet serial dates, which the
spec also lists, are left out of this model; no claim depends on them. -/
def parseDate (s : String) : Option CalendarDate :=
  let cs := (strTrim s).data
  match parseIsoDate cs with
  | some d => some d
  | none =>
    match parseDmyDate '/' cs with
    | some d => some d
    | none => parseDmyDate '-' cs

/-- Modelled from the spec, section 4.2: a tax field defaults to 0 when
blank and fails only if present but unparseable. -/
def parseTaxField (s : String) : Option ℚ :=
  if (strTrim s).length = 0 then some 0
  else parseDecimal (stripCurrency (strTrim s))

/-- Modelled from the spec, section 4.2: the RecordNormalizer. Processes one
raw row independently given the resolved column map; the first failing field
is reported with its reason. The back end implementing it is not in the
source tree. -/
def normalizeRow (rt : RecordType) (row : RawRow) :
    Except FieldError InvoiceRecord :=
  let g := strUpper (strTrim row.gstin)
  if ¬ (g.length = 15 && g.data.all isGstinChar) then
    Except.error { field := "gstin"
                   reason := "gstin must be 15 characters A-Z 0-9" }
  else
    let inv := strTrim row.invoice_number
    if inv.length = 0 then
      Except.error { field := "invoice_number"
                     reason := "invoice number is empty" }
    else
      match parseDate row.invoice_date with
      | none => Except.error { field := "invoice_date"
                               reason := "unrecognized date format" }
      | some d =>
        match parseDecimal (stripCurrency (strTrim row.invoice_amount)) with
        | none => Except.error { field := "invoice_amount"
                                 reason := "invoice amount is not a number" }
        | some amt =>
          if amt ≤ 0 then
            Except.error { field := "invoice_amount"
                           reason := "invoice amount must be positive" }
          else
            match parseTaxField row.cgst, parseTaxField row.sgst,
                parseTaxField row.igst with
            | none, _, _ => Except.error { field := "cgst"
                                           reason := "cgst is not a number" }
            | _, none, _ => Except.error { field := "sgst"
                                           reason := "sgst is not a number" }
            | _, _, none => Except.error { field := "igst"
                                           reason := "igst is not a number" }
            | some c, some sg, some i =>
              Except.ok
                { record_type := rt
                  gstin := g
                  invoice_number := inv
                  match_key_fragment :=
                    String.mk ((strUpper inv).data.filter Char.isAlphanum)
                  invoice_date := d
                  invoice_amount := amt
                  cgst := c
                  sgst := sg
                  igst := i
                  vendor_name := strTrim row.vendor_name }

/-- One entry of the rejected-rows report of a batch. -/
structure RejectedRow where
  row_index : Nat
  field : String
  reason : String
deriving DecidableEq, Repr

/-- The response of one batch ingestion. -/
structure BatchResult where
  accepted : List InvoiceRecord
  rejected_rows : List RejectedRow
deriving DecidableEq, Repr

/-- The accepted-count field of a batch response. -/
def accepted_count (b : BatchResult) : Nat := b.accepted.length

/-- Batch normalization from a given starting row index: each row goes
through the normalizer independently and lands either in the accepted list
or as one rejected-rows entry. -/
def normalizeBatchFrom (rt : RecordType) : Nat → List RawRow → BatchResult
  | _, [] => { accepted := [], rejected_rows := [] }
  | i, row :: rows =>
    let rest := normalizeBatchFrom rt (i + 1) rows
    match normalizeRow rt row with
    | Except.ok rec =>
      { accepted := rec :: rest.accepted, rejected_rows := rest.rejected_rows }
    | Except.error e =>
      { accepted := rest.accepted
        rejected_rows :=
          { row_index := i, field := e.field, reason := e.reason }
            :: rest.rejected_rows }

/-- Modelled from the spec, sections 4.2 and 6: batch ingestion of the rows
of one uploaded file that passed column mapping, with partial-success
semantics. -/
def normalizeBatch (rt : RecordType) (rows : List RawRow) : BatchResult :=
  normalizeBatchFrom rt 0 rows

/-- From src/frontend/src/App.js, ManualEntryForm: the controlled form state;
every field holds the raw string of its input element. -/
structure FormData where
  gstin : String
  invoice_number : String
  invoice_date : String
  invoice_amount : String
  cgst : String
  sgst : String
  igst : String
  vendor_name : String
deriving DecidableEq, Repr

/-- Model of the JavaScript parseFloat builtin on the decimal inputs the form
holds: skip leading spaces, optional sign, digits with an optional fraction;
none models NaN. -/
def jsParseFloat (s : String) : Option ℚ :=
  let cs := s.data.dropWhile (fun c => c = ' ')
  let signed : Bool × List Char :=
    match cs with
    | '-' :: rest => (true, rest)
    | '+' :: rest => (false, rest)
    | _ => (false, cs)
  let intPart := signed.2.takeWhile Char.isDigit
  let rest := signed.2.dropWhile Char.isDigit
  let fracPart : List Char :=
    match rest with
    | '.' :: r => r.takeWhile Char.isDigit
    | _ => []
  if intPart = [] && fracPart = [] then none
  else
    let q : ℚ :=
      mkRat (digitsToNat intPart * 10 ^ fracPart.length + digitsToNat fracPart)
        (10 ^ fracPart.length)
    some (if signed.1 then -q else q)

/-- From src/frontend/src/App.js validateForm, lines 160 to 163: the gstin
check tests only falsiness (the empty string) and length 15; it neither
trims nor restricts the character class. -/
def gstinFieldError (f : FormData) : Bool :=
  decide (f.gstin = "") || decide (f.gstin.length ≠ 15)

/-- From src/frontend/src/App.js validateForm, lines 165 to 168: the invoice
number must be nonempty after a trim. -/
def invoiceNumberFieldError (f : FormData) : Bool :=
  decide (strTrim f.invoice_number = "")

/-- From src/frontend/src/App.js validateForm, lines 170 to 173: the date
string must be nonempty. -/
def invoiceDateFieldError (f : FormData) : Bool :=
  decide (f.invoice_date = "")

/-- From src/frontend/src/App.js validateForm, lines 175 to 179: parseFloat
then a falsy-or-nonpositive test; a NaN amount passes because NaN compares
false against 0. -/
def invoiceAmountFieldError (f : FormData) : Bool :=
  decide (f.invoice_amount = "") ||
    (match jsParseFloat f.invoice_amount with
     | some q => decide (q ≤ 0)
     | none => false)

/-- From src/frontend/src/App.js validateForm, lines 157 to 183: the form
passes when no field check recorded an error. -/
def validateForm (f : FormData) : Bool :=
  !(gstinFieldError f) && !(invoiceNumberFieldError f)
    && !(invoiceDateFieldError f) && !(invoiceAmountFieldError f)

/-- The payload shape posted by the manual entry form. -/
structure SubmittedRecord where
  gstin : String
  invoice_number : String
  invoice_date : String
  invoice_amount : ℚ
  cgst : ℚ
  sgst : ℚ
  igst : ℚ
  vendor_name : String
deriving DecidableEq, Repr

/-- From src/frontend/src/App.js handleSubmit, lines 195 to 202: the payload
sent when the form validates; gstin is uppercased and the numeric fields go
through parseFloat with a 0 fallback for NaN. -/
def submitPayload (f : FormData) : SubmittedRecord :=
  { gstin := strUpper f.gstin
    invoice_number := f.invoice_number
    invoice_date := f.invoice_date
    invoice_amount := (jsParseFloat f.invoice_amount).getD 0
    cgst := (jsParseFloat f.cgst).getD 0
    sgst := (jsParseFloat f.sgst).getD 0
    igst := (jsParseFloat f.igst).getD 0
    vendor_name := f.vendor_name }

/-- From src/frontend/src/App.js handleReconciliation, lines 929 to 936: the
UI refuses to send the reconcile request when either loaded list is empty. -/
def uiSendsReconcileRequest (booksLen twobLen : Nat) : Bool :=
  !(decide (booksLen = 0) || decide (twobLen = 0))

lemma mem_dedupKeysAux (x : MatchKey) :
    ∀ (l seen : List MatchKey), x ∈ dedupKeysAux seen l ↔ x ∈ l ∧ x ∉ seen := by
  intro l
  induction l with
  | nil => intro seen; simp [dedupKeysAux]
  | cons k ks ih =>
    intro seen
    by_cases hk : k ∈ seen
    · simp only [dedupKeysAux, if_pos hk, ih, List.mem_cons]
      constructor
      · tauto
      · rintro ⟨rfl | hx, hs⟩
        · exact absurd hk hs
        · tauto
    · simp only [dedupKeysAux, if_neg hk, List.mem_cons, ih]
      by_cases hxk : x = k
      · subst hxk; tauto
      · tauto

lemma nodup_dedupKeysAux : ∀ (l seen : List MatchKey), (dedupKeysAux seen l).Nodup := by
  intro l
  induction l with
  | nil => intro seen; simp [dedupKeysAux]
  | cons k ks ih =>
    intro seen
    by_cases hk : k ∈ seen
    · simpa only [dedupKeysAux, if_pos hk] using ih seen
    · simp only [dedupKeysAux, if_neg hk]
      refine List.Nodup.cons ?_ (ih (k :: seen))
      intro hmem
      exact ((mem_dedupKeysAux k ks (k :: seen)).mp hmem).2 (List.mem_cons_self _ _)

lemma mem_dedupKeys {x : MatchKey} {l : List MatchKey} :
    x ∈ dedupKeys l ↔ x ∈ l := by
  simp [dedupKeys, mem_dedupKeysAux]

lemma nodup_dedupKeys (l : List MatchKey) : (dedupKeys l).Nodup :=
  nodup_dedupKeysAux l []

lemma matchKey_of_mem_bucket {r : InvoiceRecord} {k : MatchKey}
    {l : List InvoiceRecord} (h : r ∈ bucket k l) : matchKey r = k := by
  have h2 := (List.mem_filter.mp h).2
  simpa using h2

lemma bucket_eq_nil_of_not_mem {k : MatchKey} {l : List InvoiceRecord}
    (h : k ∉ l.map matchKey) : bucket k l = [] := by
  refine List.filter_eq_nil_iff.mpr ?_
  intro r hr
  simp only [decide_eq_true_eq]
  intro hk
  exact h (List.mem_map.mpr ⟨r, hr, hk⟩)

lemma not_mem_allKeys_iff {k : MatchKey} {books twob : List InvoiceRecord} :
    k ∉ allKeys books twob ↔
      k ∉ books.map matchKey ∧ k ∉ twob.map matchKey := by
  simp [allKeys, mem_dedupKeys, not_or]

lemma classifyPair_match_status_cases (tol : Tolerances) (b t : InvoiceRecord) :
    (classifyPair tol b t).match_status = MatchStatus.MATCHED ∨
    (classifyPair tol b t).match_status = MatchStatus.AMOUNT_MISMATCH ∨
    (classifyPair tol b t).match_status = MatchStatus.TAX_MISMATCH := by
  simp only [classifyPair]
  split
  · split
    · exact Or.inl rfl
    · exact Or.inr (Or.inr rfl)
  · exact Or.inr (Or.inl rfl)

/-- A result that pairs a Books record and a 2B record whose MatchKey is k. -/
def pairedWithKey (k : MatchKey) (r : MatchResult) : Bool :=
  decide (r.books_record.map matchKey = some k)
    && decide (r.twob_record.map matchKey = some k)

/-- An UNMATCHED_BOOKS result whose Books record has MatchKey k. -/
def unmatchedBooksWithKey (k : MatchKey) (r : MatchResult) : Bool :=
  decide (r.match_status = MatchStatus.UNMATCHED_BOOKS)
    && decide (r.books_record.map matchKey = some k)

/-- An UNMATCHED_2B result whose 2B record has MatchKey k. -/
def unmatched2BWithKey (k : MatchKey) (r : MatchResult) : Bool :=
  decide (r.match_status = MatchStatus.UNMATCHED_2B)
    && decide (r.twob_record.map matchKey = some k)

lemma filter_pairBucket_paired_self (tol : Tolerances) (k : MatchKey)
    (books twob : List InvoiceRecord) :
    (pairBucket tol (bucket k books) (bucket k twob)).filter (pairedWithKey k)
      = ((bucket k books).zip (bucket k twob)).map
          (fun q => classifyPair tol q.1 q.2) := by
  unfold pairBucket
  rw [List.filter_append, List.filter_append]
  have h1 : (((bucket k books).zip (bucket k twob)).map
      (fun q => classifyPair tol q.1 q.2)).filter (pairedWithKey k)
      = ((bucket k books).zip (bucket k twob)).map
          (fun q => classifyPair tol q.1 q.2) := by
    refine List.filter_eq_self.mpr ?_
    intro r hr
    rcases List.mem_map.mp hr with ⟨q, hq, rfl⟩
    obtain ⟨b, t⟩ := q
    have hb := matchKey_of_mem_bucket (List.of_mem_zip hq).1
    have ht := matchKey_of_mem_bucket (List.of_mem_zip hq).2
    simp [pairedWithKey, classifyPair, hb, ht]
  have h2 : (((bucket k books).drop (bucket k twob).length).map
      unmatchedBooks).filter (pairedWithKey k) = [] := by
    refine List.filter_eq_nil_iff.mpr ?_
    intro r hr
    rcases List.mem_map.mp hr with ⟨b, _, rfl⟩
    simp [pairedWithKey, unmatchedBooks]
  have h3 : (((bucket k twob).drop (bucket k books).length).map
      unmatched2B).filter (pairedWithKey k) = [] := by
    refine List.filter_eq_nil_iff.mpr ?_
    intro r hr
    rcases List.mem_map.mp hr with ⟨t, _, rfl⟩
    simp [pairedWithKey, unmatched2B]
  rw [h1, h2, h3, List.append_nil, List.append_nil]

lemma filter_pairBucket_ub_self (tol : Tolerances) (k : MatchKey)
    (books twob : List InvoiceRecord) :
    (pairBucket tol (bucket k books) (bucket k twob)).filter
        (unmatchedBooksWithKey k)
      = ((bucket k books).drop (bucket k twob).length).map unmatchedBooks := by
  unfold pairBucket
  rw [List.filter_append, List.filter_append]
  have h1 : (((bucket k books).zip (bucket k twob)).map
      (fun q => classifyPair tol q.1 q.2)).filter (unmatchedBooksWithKey k)
      = [] := by
    refine List.filter_eq_nil_iff.mpr ?_
    intro r hr
    rcases List.mem_map.mp hr with ⟨q, hq, rfl⟩
    rcases classifyPair_match_status_cases tol q.1 q.2 with h | h | h <;>
      simp [unmatchedBooksWithKey, h]
  have h2 : (((bucket k books).drop (bucket k twob).length).map
      unmatchedBooks).filter (unmatchedBooksWithKey k)
      = ((bucket k books).drop (bucket k twob).length).map unmatchedBooks := by
    refine List.filter_eq_self.mpr ?_
    intro r hr
    rcases List.mem_map.mp hr with ⟨b, hb, rfl⟩
    have hk := matchKey_of_mem_bucket (List.mem_of_mem_drop hb)
    simp [unmatchedBooksWithKey, unmatchedBooks, hk]
  have h3 : (((bucket k twob).drop (bucket k books).length).map
      unmatched2B).filter (unmatchedBooksWithKey k) = [] := by
    refine List.filter_eq_nil_iff.mpr ?_
    intro r hr
    rcases List.mem_map.mp hr with ⟨t, _, rfl⟩
    simp [unmatchedBooksWithKey, unmatched2B]
  rw [h1, h2, h3, List.nil_append, List.append_nil]

lemma filter_pairBucket_u2b_self (tol : Tolerances) (k : MatchKey)
    (books twob : List InvoiceRecord) :
    (pairBucket tol (bucket k books) (bucket k twob)).filter
        (unmatched2BWithKey k)
      = ((bucket k twob).drop (bucket k books).length).map unmatched2B := by
  unfold pairBucket
  rw [List.filter_append, List.filter_append]
  have h1 : (((bucket k books).zip (bucket k twob)).map
      (fun q => classifyPair tol q.1 q.2)).filter (unmatched2BWithKey k)
      = [] := by
    refine List.filter_eq_nil_iff.mpr ?_
    intro r hr
    rcases List.mem_map.mp hr with ⟨q, hq, rfl⟩
    rcases classifyPair_match_status_cases tol q.1 q.2 with h | h | h <;>
      simp [unmatched2BWithKey, h]
  have h2 : (((bucket k books).drop (bucket k twob).length).map
      unmatchedBooks).filter (unmatched2BWithKey k) = [] := by
    refine List.filter_eq_nil_iff.mpr ?_
    intro r hr
    rcases List.mem_map.mp hr with ⟨b, _, rfl⟩
    simp [unmatched2BWithKey, unmatchedBooks]
  have h3 : (((bucket k twob).drop (bucket k books).length).map
      unmatched2B).filter (unmatched2BWithKey k)
      = ((bucket k twob).drop (bucket k books).length).map unmatched2B := by
    refine List.filter_eq_self.mpr ?_
    intro r hr
    rcases List.mem_map.mp hr with ⟨t, ht, rfl⟩
    have hk := matchKey_of_mem_bucket (List.mem_of_mem_drop ht)
    simp [unmatched2BWithKey, unmatched2B, hk]
  rw [h1, h2, h3, List.nil_append, List.nil_append]

lemma pairBucket_keys (tol : Tolerances) (k2 : MatchKey)
    (books twob : List InvoiceRecord) :
    ∀ r ∈ pairBucket tol (bucket k2 books) (bucket k2 twob),
      (r.books_record.map matchKey = some k2 ∨ r.books_record = none) ∧
      (r.twob_record.map matchKey = some k2 ∨ r.twob_record = none) := by
  intro r hr
  unfold pairBucket at hr
  rcases List.mem_append.mp hr with hr | hr
  rcases List.mem_append.mp hr with hr | hr
  · rcases List.mem_map.mp hr with ⟨q, hq, rfl⟩
    have hb := matchKey_of_mem_bucket (List.of_mem_zip hq).1
    have ht := matchKey_of_mem_bucket (List.of_mem_zip hq).2
    exact ⟨Or.inl (by simp [classifyPair, hb]), Or.inl (by simp [classifyPair, ht])⟩
  · rcases List.mem_map.mp hr with ⟨b, hb, rfl⟩
    have hk := matchKey_of_mem_bucket (List.mem_of_mem_drop hb)
    exact ⟨Or.inl (by simp [unmatchedBooks, hk]), Or.inr rfl⟩
  · rcases List.mem_map.mp hr with ⟨t, ht, rfl⟩
    have hk := matchKey_of_mem_bucket (List.mem_of_mem_drop ht)
    exact ⟨Or.inr rfl, Or.inl (by simp [unmatched2B, hk])⟩

lemma filter_pairBucket_ne (tol : Tolerances) {k k2 : MatchKey} (hne : k2 ≠ k)
    (books twob : List InvoiceRecord) :
    (pairBucket tol (bucket k2 books) (bucket k2 twob)).filter
        (pairedWithKey k) = []
    ∧ (pairBucket tol (bucket k2 books) (bucket k2 twob)).filter
        (unmatchedBooksWithKey k) = []
    ∧ (pairBucket tol (bucket k2 books) (bucket k2 twob)).filter
        (unmatched2BWithKey k) = [] := by
  have hkeys := pairBucket_keys tol k2 books twob
  refine ⟨?_, ?_, ?_⟩ <;> refine List.filter_eq_nil_iff.mpr ?_ <;>
    intro r hr <;> rcases hkeys r hr with ⟨hb, ht⟩
  · rcases hb with hb | hb <;> simp [pairedWithKey, hb, hne]
  · rcases hb with hb | hb <;> simp [unmatchedBooksWithKey, hb, hne]
  · rcases ht with ht | ht <;> simp [unmatched2BWithKey, ht, hne]

lemma filter_flatten_map_single {α κ : Type} [DecidableEq κ] (p : α → Bool)
    (f : κ → List α) (k : κ) :
    ∀ (L : List κ), L.Nodup → (∀ x ∈ L, x ≠ k → (f x).filter p = []) →
      ((L.map f).flatten).filter p = if k ∈ L then (f k).filter p else [] := by
  intro L
  induction L with
  | nil => simp
  | cons k2 L ih =>
    intro hnd h
    rcases List.nodup_cons.mp hnd with ⟨hk2, hndL⟩
    have ihL := ih hndL (fun x hx hne => h x (List.mem_cons_of_mem _ hx) hne)
    rw [List.map_cons, List.flatten_cons, List.filter_append, ihL]
    by_cases hkk : k2 = k
    · subst hkk
      rw [if_neg hk2, if_pos (List.mem_cons_self _ _), List.append_nil]
    · rw [h k2 (List.mem_cons_self _ _) hkk, List.nil_append]
      by_cases hkL : k ∈ L
      · rw [if_pos hkL, if_pos (List.mem_cons_of_mem _ hkL)]
      · rw [if_neg hkL, if_neg (by
          intro hc
          rcases List.mem_cons.mp hc with h3 | h3
          · exact hkk h3.symm
          · exact hkL h3)]

/-- C1: for every pair of BOOKS and 2B snapshots and every MatchKey, the
engine pairs exactly the zip of the two key buckets, which has length
min(count_books_for_key, count_2b_for_key) and pairs the i-th Books record
of the bucket with the i-th 2B record in ingestion order; every Books record
beyond the paired count yields one UNMATCHED_BOOKS result, every surplus 2B
record one UNMATCHED_2B result, and for a key present on only one side the
drop leaves the full bucket, so every record of that side yields one
unmatched result. -/
theorem reconcile_ordinal_pairing (tol : Tolerances)
    (books twob : List InvoiceRecord) (k : MatchKey) :
    (reconcile tol books twob).filter (pairedWithKey k)
      = ((bucket k books).zip (bucket k twob)).map
          (fun q => classifyPair tol q.1 q.2)
    ∧ (reconcile tol books twob).filter (unmatchedBooksWithKey k)
      = ((bucket k books).drop (bucket k twob).length).map unmatchedBooks
    ∧ (reconcile tol books twob).filter (unmatched2BWithKey k)
      = ((bucket k twob).drop (bucket k books).length).map unmatched2B := by
  have hnd : (allKeys books twob).Nodup := nodup_dedupKeys _
  refine ⟨?_, ?_, ?_⟩
  · unfold reconcile
    rw [filter_flatten_map_single (pairedWithKey k)
      (fun k2 => pairBucket tol (bucket k2 books) (bucket k2 twob)) k
      (allKeys books twob) hnd
      (fun x _ hne => (filter_pairBucket_ne tol hne books twob).1)]
    by_cases hk : k ∈ allKeys books twob
    · rw [if_pos hk]
      exact filter_pairBucket_paired_self tol k books twob
    · rw [if_neg hk]
      rcases not_mem_allKeys_iff.mp hk with ⟨h1, h2⟩
      rw [bucket_eq_nil_of_not_mem h1, bucket_eq_nil_of_not_mem h2]
      simp
  · unfold reconcile
    rw [filter_flatten_map_single (unmatchedBooksWithKey k)
      (fun k2 => pairBucket tol (bucket k2 books) (bucket k2 twob)) k
      (allKeys books twob) hnd
      (fun x _ hne => (filter_pairBucket_ne tol hne books twob).2.1)]
    by_cases hk : k ∈ allKeys books twob
    · rw [if_pos hk]
      exact filter_pairBucket_ub_self tol k books twob
    · rw [if_neg hk]
      rcases not_mem_allKeys_iff.mp hk with ⟨h1, h2⟩
      rw [bucket_eq_nil_of_not_mem h1, bucket_eq_nil_of_not_mem h2]
      simp
  · unfold reconcile
    rw [filter_flatten_map_single (unmatched2BWithKey k)
      (fun k2 => pairBucket tol (bucket k2 books) (bucket k2 twob)) k
      (allKeys books twob) hnd
      (fun x _ hne => (filter_pairBucket_ne tol hne books twob).2.2)]
    by_cases hk : k ∈ allKeys books twob
    · rw [if_pos hk]
      exact filter_pairBucket_u2b_self tol k books twob
    · rw [if_neg hk]
      rcases not_mem_allKeys_iff.mp hk with ⟨h1, h2⟩
      rw [bucket_eq_nil_of_not_mem h1, bucket_eq_nil_of_not_mem h2]
      simp

/-- C2: for every paired pair of records, with amount_diff and tax_diff the
absolute differences of invoice amount and total tax, the classification is
MATCHED exactly when both diffs are within tolerance, AMOUNT_MISMATCH
exactly when the amount diff exceeds its tolerance regardless of the tax
diff, and TAX_MISMATCH exactly when the amount diff is within tolerance but
the tax diff is not; a pair whose amount diff equals the amount tolerance
exactly is MATCHED when the tax diff is within tolerance, and one whose
amount diff is the tolerance plus 0.01 is AMOUNT_MISMATCH. -/
theorem classifyPair_status_spec (tol : Tolerances) (b t : InvoiceRecord) :
    ((classifyPair tol b t).match_status = MatchStatus.MATCHED ↔
        |b.invoice_amount - t.invoice_amount| ≤ tol.amount_tolerance ∧
        |total_tax b - total_tax t| ≤ tol.tax_tolerance)
    ∧ ((classifyPair tol b t).match_status = MatchStatus.AMOUNT_MISMATCH ↔
        tol.amount_tolerance < |b.invoice_amount - t.invoice_amount|)
    ∧ ((classifyPair tol b t).match_status = MatchStatus.TAX_MISMATCH ↔
        |b.invoice_amount - t.invoice_amount| ≤ tol.amount_tolerance ∧
        tol.tax_tolerance < |total_tax b - total_tax t|)
    ∧ (|b.invoice_amount - t.invoice_amount| = tol.amount_tolerance →
        |total_tax b - total_tax t| ≤ tol.tax_tolerance →
        (classifyPair tol b t).match_status = MatchStatus.MATCHED)
    ∧ (|b.invoice_amount - t.invoice_amount| = tol.amount_tolerance + 1/100 →
        (classifyPair tol b t).match_status = MatchStatus.AMOUNT_MISMATCH) := by
  have hstat : (classifyPair tol b t).match_status =
      (if |b.invoice_amount - t.invoice_amount| ≤ tol.amount_tolerance then
        if |total_tax b - total_tax t| ≤ tol.tax_tolerance then
          MatchStatus.MATCHED
        else MatchStatus.TAX_MISMATCH
      else MatchStatus.AMOUNT_MISMATCH) := rfl
  by_cases ha : |b.invoice_amount - t.invoice_amount| ≤ tol.amount_tolerance
  · by_cases ht : |total_tax b - total_tax t| ≤ tol.tax_tolerance
    · rw [hstat, if_pos ha, if_pos ht]
      refine ⟨by simp [ha, ht], by simp [not_lt.mpr ha], by simp [not_lt.mpr ha, ht], fun _ _ => rfl, ?_⟩
      intro heq
      exfalso
      have : tol.amount_tolerance < |b.invoice_amount - t.invoice_amount| := by
        rw [heq]; linarith
      exact absurd ha (not_le.mpr this)
    · rw [hstat, if_pos ha, if_neg ht]
      refine ⟨by simp [ht], by simp [not_lt.mpr ha], by simp [ha, not_le.mp ht], fun _ h2 => absurd h2 ht, ?_⟩
      intro heq
      exfalso
      have : tol.amount_tolerance < |b.invoice_amount - t.invoice_amount| := by
        rw [heq]; linarith
      exact absurd ha (not_le.mpr this)
  · rw [hstat, if_neg ha]
    refine ⟨⟨fun h => absurd h (by decide), fun h => absurd h.1 ha⟩,
      by simp [not_le.mp ha], ?_, fun h1 _ => absurd (h1 ▸ le_refl _) ha,
      fun _ => rfl⟩
    constructor
    · intro h
      exact absurd h (by decide)
    · intro h
      exact absurd h.1 ha

/-- Example tolerance configuration used by the concrete witnesses. -/
def tolEx : Tolerances := { amount_tolerance := 1, tax_tolerance := 1 }

/-- Example Books record used by the concrete witnesses. -/
def bEx : InvoiceRecord :=
  { record_type := RecordType.BOOKS
    gstin := "27AAAAA0000A1Z5"
    invoice_number := "INV001"
    match_key_fragment := "INV001"
    invoice_date := ⟨2024, 1, 15⟩
    invoice_amount := 1001
    cgst := 90
    sgst := 90
    igst := 0
    vendor_name := "V" }

/-- Example 2B record sharing the key of bEx, amount 1000. -/
def tEx : InvoiceRecord :=
  { record_type := RecordType.TWO_B
    gstin := "27AAAAA0000A1Z5"
    invoice_number := "INV001"
    match_key_fragment := "INV001"
    invoice_date := ⟨2024, 1, 15⟩
    invoice_amount := 1000
    cgst := 90
    sgst := 90
    igst := 0
    vendor_name := "" }

/-- Example Books record whose amount differs from tEx by exactly the
tolerance plus 0.01. -/
def bEx2 : InvoiceRecord :=
  { bEx with invoice_amount := 1001 + 1/100 }

theorem classifyPair_status_spec_witness :
    (classifyPair tolEx bEx tEx).match_status = MatchStatus.MATCHED ∧
    (classifyPair tolEx bEx2 tEx).match_status = MatchStatus.AMOUNT_MISMATCH := by
  constructor
  · exact (classifyPair_status_spec tolEx bEx tEx).2.2.2.1
      (by norm_num [bEx, tEx, tolEx])
      (by norm_num [bEx, tEx, tolEx, total_tax])
  · exact (classifyPair_status_spec tolEx bEx2 tEx).2.2.2.2
      (by norm_num [bEx2, bEx, tEx, tolEx])

lemma reconcile_sides (tol : Tolerances) (books twob : List InvoiceRecord) :
    ∀ r ∈ reconcile tol books twob,
      r.books_record.isSome
          = decide (r.match_status ≠ MatchStatus.UNMATCHED_2B) ∧
      r.twob_record.isSome
          = decide (r.match_status ≠ MatchStatus.UNMATCHED_BOOKS) := by
  intro r hr
  unfold reconcile at hr
  rcases List.mem_flatten.mp hr with ⟨seg, hseg, hrseg⟩
  rcases List.mem_map.mp hseg with ⟨k, _, rfl⟩
  unfold pairBucket at hrseg
  rcases List.mem_append.mp hrseg with hrs | hrs
  rcases List.mem_append.mp hrs with hrs | hrs
  · rcases List.mem_map.mp hrs with ⟨q, _, rfl⟩
    rcases classifyPair_match_status_cases tol q.1 q.2 with h | h | h <;>
      rw [h] <;> exact ⟨rfl, rfl⟩
  · rcases List.mem_map.mp hrs with ⟨b, _, rfl⟩
    exact ⟨rfl, rfl⟩
  · rcases List.mem_map.mp hrs with ⟨t, _, rfl⟩
    exact ⟨rfl, rfl⟩

lemma countP_books_split (rs : List MatchResult)
    (h : ∀ r ∈ rs, r.books_record.isSome
        = decide (r.match_status ≠ MatchStatus.UNMATCHED_2B)) :
    rs.countP (fun r => r.books_record.isSome)
      = rs.countP (fun r => r.match_status = MatchStatus.MATCHED)
        + rs.countP (fun r => r.match_status = MatchStatus.AMOUNT_MISMATCH)
        + rs.countP (fun r => r.match_status = MatchStatus.TAX_MISMATCH)
        + rs.countP (fun r => r.match_status = MatchStatus.UNMATCHED_BOOKS) := by
  induction rs with
  | nil => simp
  | cons r rs ih =>
    have hr := h r (List.mem_cons_self _ _)
    have ih2 := ih (fun x hx => h x (List.mem_cons_of_mem _ hx))
    simp only [List.countP_cons]
    cases hst : r.match_status <;> rw [hst] at hr <;> simp [hr, hst] <;> omega

lemma countP_twob_split (rs : List MatchResult)
    (h : ∀ r ∈ rs, r.twob_record.isSome
        = decide (r.match_status ≠ MatchStatus.UNMATCHED_BOOKS)) :
    rs.countP (fun r => r.twob_record.isSome)
      = rs.countP (fun r => r.match_status = MatchStatus.MATCHED)
        + rs.countP (fun r => r.match_status = MatchStatus.AMOUNT_MISMATCH)
        + rs.countP (fun r => r.match_status = MatchStatus.TAX_MISMATCH)
        + rs.countP (fun r => r.match_status = MatchStatus.UNMATCHED_2B) := by
  induction rs with
  | nil => simp
  | cons r rs ih =>
    have hr := h r (List.mem_cons_self _ _)
    have ih2 := ih (fun x hx => h x (List.mem_cons_of_mem _ hx))
    simp only [List.countP_cons]
    cases hst : r.match_status <;> rw [hst] at hr <;> simp [hr, hst] <;> omega

/-- C3: for every run, the summary of the produced MatchResult list
satisfies matched + amount_mismatch + tax_mismatch + unmatched_books =
total_books_records and matched + amount_mismatch + tax_mismatch +
unmatched_2b = total_2b_records, where the side totals count the results
referencing a Books record and a 2B record respectively. -/
theorem summary_conservation (tol : Tolerances)
    (books twob : List InvoiceRecord) :
    (summarize (reconcile tol books twob)).matched_records
        + (summarize (reconcile tol books twob)).amount_mismatches
        + (summarize (reconcile tol books twob)).tax_mismatches
        + (summarize (reconcile tol books twob)).unmatched_books_records
      = (summarize (reconcile tol books twob)).total_books_records
    ∧ (summarize (reconcile tol books twob)).matched_records
        + (summarize (reconcile tol books twob)).amount_mismatches
        + (summarize (reconcile tol books twob)).tax_mismatches
        + (summarize (reconcile tol books twob)).unmatched_2b_records
      = (summarize (reconcile tol books twob)).total_2b_records := by
  constructor
  · exact (countP_books_split (reconcile tol books twob)
      (fun r hr => (reconcile_sides tol books twob r hr).1)).symm
  · exact (countP_twob_split (reconcile tol books twob)
      (fun r hr => (reconcile_sides tol books twob r hr).2)).symm

/-- C4: the engine is a pure function of its two input snapshots; identical
inputs always produce the identical MatchResult list and the identical
summary. -/
theorem reconcile_deterministic (tol : Tolerances)
    (b1 b2 t1 t2 : List InvoiceRecord) (hb : b1 = b2) (ht : t1 = t2) :
    reconcile tol b1 t1 = reconcile tol b2 t2 ∧
    summarize (reconcile tol b1 t1) = summarize (reconcile tol b2 t2) := by
  subst hb
  subst ht
  exact ⟨rfl, rfl⟩

theorem reconcile_deterministic_witness :
    reconcile tolEx [bEx] [tEx] = reconcile tolEx [bEx] [tEx] ∧
    summarize (reconcile tolEx [bEx] [tEx])
      = summarize (reconcile tolEx [bEx] [tEx]) :=
  reconcile_deterministic tolEx [bEx] [bEx] [tEx] [tEx] rfl rfl

lemma appendRecord_published (rt : RecordType) (r : InvoiceRecord)
    (s : ServerState) : (appendRecord rt r s).published = s.published := by
  cases rt <;> rfl

lemma clearData_published (t : ClearTarget) (s : ServerState) :
    (clearData t s).published = none := by
  cases t <;> rfl

lemma runOps_append_op (tol : Tolerances) (s : ServerState)
    (ops : List ServerOp) (op : ServerOp) :
    runOps tol s (ops ++ [op]) = applyOp tol (runOps tol s ops) op := by
  simp [runOps, List.foldl_append]

/-- C5: clearing any partition discards the published MatchResult set and
summary in the same atomic step as the delete, so the readers of the state
right after the clear see not-yet-computed; and in every state reachable
from the cleared state by further requests, the published slot is either
still empty or holds a result set and summary that the engine computed from
the data of a state reached after the clear, never the pre-clear results. -/
theorem clear_invalidates_results (tol : Tolerances) (s : ServerState)
    (t : ClearTarget) (ops : List ServerOp) :
    (clearData t s).published = none
    ∧ getSummary (clearData t s) = none
    ∧ getMatches (clearData t s) = none
    ∧ generateExport (clearData t s) = Except.error ExportFailure.exportError
    ∧ ((runOps tol (clearData t s) ops).published = none ∨
        ∃ pre rest, ops = pre ++ rest ∧
          (runOps tol (clearData t s) ops).published =
            some (reconcile tol (runOps tol (clearData t s) pre).books
                    (runOps tol (clearData t s) pre).twob,
                  summarize (reconcile tol
                    (runOps tol (clearData t s) pre).books
                    (runOps tol (clearData t s) pre).twob))) := by
  refine ⟨clearData_published t s, ?_, ?_, ?_, ?_⟩
  · simp [getSummary, clearData_published]
  · simp [getMatches, clearData_published]
  · simp [generateExport, clearData_published]
  · induction ops using List.reverseRecOn with
    | nil => exact Or.inl (clearData_published t s)
    | append_singleton ops op ih =>
      rw [runOps_append_op]
      cases op with
      | ingest rt r =>
        have hpub : (applyOp tol (runOps tol (clearData t s) ops)
            (ServerOp.ingest rt r)).published
            = (runOps tol (clearData t s) ops).published :=
          appendRecord_published rt r _
        rw [hpub]
        rcases ih with h | ⟨pre, rest, hsplit, heq⟩
        · exact Or.inl h
        · exact Or.inr ⟨pre, rest ++ [ServerOp.ingest rt r],
            by rw [hsplit, List.append_assoc], heq⟩
      | clear t2 =>
        exact Or.inl (clearData_published t2 _)
      | runReconcile =>
        by_cases hf : (runOps tol (clearData t s) ops).reconcileInFlight = true
        · have hpub : (applyOp tol (runOps tol (clearData t s) ops)
              ServerOp.runReconcile).published
              = (runOps tol (clearData t s) ops).published := by
            simp [applyOp, handleReconcileRequest, hf]
          rw [hpub]
          rcases ih with h | ⟨pre, rest, hsplit, heq⟩
          · exact Or.inl h
          · exact Or.inr ⟨pre, rest ++ [ServerOp.runReconcile],
              by rw [hsplit, List.append_assoc], heq⟩
        · have hpub : (applyOp tol (runOps tol (clearData t s) ops)
              ServerOp.runReconcile).published
              = some (reconcile tol (runOps tol (clearData t s) ops).books
                        (runOps tol (clearData t s) ops).twob,
                      summarize (reconcile tol
                        (runOps tol (clearData t s) ops).books
                        (runOps tol (clearData t s) ops).twob)) := by
            simp [applyOp, handleReconcileRequest, hf]
          exact Or.inr ⟨ops, [ServerOp.runReconcile], rfl, hpub⟩

lemma normalizeBatchFrom_spec (rt : RecordType) :
    ∀ (rows : List RawRow) (i : Nat),
      (normalizeBatchFrom rt i rows).accepted
          = rows.filterMap (fun row => (normalizeRow rt row).toOption)
      ∧ (normalizeBatchFrom rt i rows).rejected_rows
          = (rows.enumFrom i).filterMap (fun p =>
              match normalizeRow rt p.2 with
              | Except.ok _ => none
              | Except.error e =>
                some { row_index := p.1, field := e.field, reason := e.reason })
      ∧ (normalizeBatchFrom rt i rows).accepted.length
          + (normalizeBatchFrom rt i rows).rejected_rows.length
          = rows.length := by
  intro rows
  induction rows with
  | nil => intro i; simp [normalizeBatchFrom]
  | cons row rows ih =>
    intro i
    rcases ih (i + 1) with ⟨ha, hr, hl⟩
    cases hnv : normalizeRow rt row with
    | ok rec =>
      refine ⟨?_, ?_, ?_⟩
      · simp [normalizeBatchFrom, hnv, ha, Except.toOption]
      · simp [normalizeBatchFrom, hnv, hr, List.enumFrom_cons]
      · simp only [normalizeBatchFrom, hnv, List.length_cons]
        omega
    | error e =>
      refine ⟨?_, ?_, ?_⟩
      · simp [normalizeBatchFrom, hnv, ha, Except.toOption]
      · simp [normalizeBatchFrom, hnv, hr, List.enumFrom_cons]
      · simp only [normalizeBatchFrom, hnv, List.length_cons]
        omega

/-- C6: for every batch of rows that passed column mapping, each row is
normalized independently and either accepted in full or rejected in full:
the accepted count plus the number of rejected-rows entries equals the row
count, the rejected-rows report holds exactly one entry carrying the row
index, the failed field and the reason for each invalid row and nothing
else, and the accepted list is exactly the list of valid rows, so no
invalid row is dropped silently and none blocks the valid rows of the same
batch. -/
theorem batch_partial_success (rt : RecordType) (rows : List RawRow) :
    accepted_count (normalizeBatch rt rows)
        + (normalizeBatch rt rows).rejected_rows.length = rows.length
    ∧ (normalizeBatch rt rows).rejected_rows
        = rows.enum.filterMap (fun p =>
            match normalizeRow rt p.2 with
            | Except.ok _ => none
            | Except.error e =>
              some { row_index := p.1, field := e.field, reason := e.reason })
    ∧ (normalizeBatch rt rows).accepted
        = rows.filterMap (fun row => (normalizeRow rt row).toOption) := by
  rcases normalizeBatchFrom_spec rt rows 0 with ⟨ha, hr, hl⟩
  exact ⟨hl, hr, ha⟩

lemma bucket_filter_ne {k k2 : MatchKey} (hne : k2 ≠ k)
    (l : List InvoiceRecord) :
    bucket k2 (l.filter (fun r => !(decide (matchKey r = k)))) = bucket k2 l := by
  unfold bucket
  rw [List.filter_filter]
  refine List.filter_congr ?_
  intro r _
  by_cases h : matchKey r = k2
  · have hkk : matchKey r ≠ k := fun hc => hne (by rw [← h]; exact hc)
    simp [h, hkk]
    exact hne
  · simp [h]

lemma flatten_buckets_perm :
    ∀ (ks : List MatchKey) (l : List InvoiceRecord), ks.Nodup →
      (∀ r ∈ l, matchKey r ∈ ks) →
      ((ks.map (fun k => bucket k l)).flatten).Perm l := by
  intro ks
  induction ks with
  | nil =>
    intro l _ hcov
    have hl : l = [] :=
      List.eq_nil_iff_forall_not_mem.mpr
        (fun r hr => by simpa using hcov r hr)
    simp [hl]
  | cons k ks ih =>
    intro l hnd hcov
    rcases List.nodup_cons.mp hnd with ⟨hk, hndks⟩
    rw [List.map_cons, List.flatten_cons]
    have hmapeq : ks.map (fun k2 => bucket k2 l)
        = ks.map (fun k2 =>
            bucket k2 (l.filter (fun r => !(decide (matchKey r = k))))) := by
      refine List.map_congr_left ?_
      intro k2 hk2
      exact (bucket_filter_ne (fun h => hk (by rw [← h]; exact hk2)) l).symm
    rw [hmapeq]
    have ihp := ih (l.filter (fun r => !(decide (matchKey r = k)))) hndks
      (by
        intro r hr
        rcases List.mem_filter.mp hr with ⟨hrl, hnk⟩
        rcases List.mem_cons.mp (hcov r hrl) with h | h
        · exfalso; simp [h] at hnk
        · exact h)
    refine (List.Perm.append_left (bucket k l) ihp).trans ?_
    exact List.filter_append_perm _ l

lemma pairBucket_nil_right (tol : Tolerances) (bs : List InvoiceRecord) :
    pairBucket tol bs [] = bs.map unmatchedBooks := by
  simp [pairBucket]

lemma pairBucket_nil_left (tol : Tolerances) (ts : List InvoiceRecord) :
    pairBucket tol [] ts = ts.map unmatched2B := by
  simp [pairBucket]

lemma reconcile_books_only (tol : Tolerances) (books : List InvoiceRecord) :
    (reconcile tol books []).Perm (books.map unmatchedBooks) := by
  unfold reconcile
  have hkeys : allKeys books [] = dedupKeys (books.map matchKey) := by
    simp [allKeys]
  rw [hkeys]
  have hmap : (dedupKeys (books.map matchKey)).map
      (fun k => pairBucket tol (bucket k books) (bucket k []))
      = (dedupKeys (books.map matchKey)).map
          (fun k => (bucket k books).map unmatchedBooks) := by
    refine List.map_congr_left ?_
    intro k _
    exact pairBucket_nil_right tol _
  rw [hmap]
  have hmm : (dedupKeys (books.map matchKey)).map
      (fun k => (bucket k books).map unmatchedBooks)
      = ((dedupKeys (books.map matchKey)).map
          (fun k => bucket k books)).map (List.map unmatchedBooks) := by
    rw [List.map_map]
    rfl
  rw [hmm, ← List.map_flatten]
  exact (flatten_buckets_perm _ books (nodup_dedupKeys _)
    (fun r hr => mem_dedupKeys.mpr (List.mem_map_of_mem matchKey hr))).map
      unmatchedBooks

lemma reconcile_twob_only (tol : Tolerances) (twob : List InvoiceRecord) :
    (reconcile tol [] twob).Perm (twob.map unmatched2B) := by
  unfold reconcile
  have hkeys : allKeys [] twob = dedupKeys (twob.map matchKey) := by
    simp [allKeys]
  rw [hkeys]
  have hmap : (dedupKeys (twob.map matchKey)).map
      (fun k => pairBucket tol (bucket k []) (bucket k twob))
      = (dedupKeys (twob.map matchKey)).map
          (fun k => (bucket k twob).map unmatched2B) := by
    refine List.map_congr_left ?_
    intro k _
    exact pairBucket_nil_left tol _
  rw [hmap]
  have hmm : (dedupKeys (twob.map matchKey)).map
      (fun k => (bucket k twob).map unmatched2B)
      = ((dedupKeys (twob.map matchKey)).map
          (fun k => bucket k twob)).map (List.map unmatched2B) := by
    rw [List.map_map]
    rfl
  rw [hmm, ← List.map_flatten]
  exact (flatten_buckets_perm _ twob (nodup_dedupKeys _)
    (fun r hr => mem_dedupKeys.mpr (List.mem_map_of_mem matchKey hr))).map
      unmatched2B

/-- C7: the engine never fails on one-sided input: with an empty 2B side it
returns exactly one UNMATCHED_BOOKS result per Books record, with an empty
BOOKS side exactly one UNMATCHED_2B result per 2B record; the refusal to
reconcile on insufficient data lives only in the caller, the UI guard of
handleReconciliation, which skips the request exactly when one of the
loaded lists is empty. -/
theorem engine_tolerates_empty_side (tol : Tolerances)
    (books twob : List InvoiceRecord) :
    (reconcile tol books []).Perm (books.map unmatchedBooks)
    ∧ (reconcile tol [] twob).Perm (twob.map unmatched2B)
    ∧ (uiSendsReconcileRequest books.length twob.length = false ↔
        books = [] ∨ twob = []) := by
  refine ⟨reconcile_books_only tol books, reconcile_twob_only tol twob, ?_⟩
  simp only [uiSendsReconcileRequest, List.length_eq_zero]
  constructor
  · intro h
    by_cases hb : books = []
    · exact Or.inl hb
    · refine Or.inr ?_
      simpa [hb] using h
  · intro h
    rcases h with h | h <;> simp [h]

/-- C8: a Reconcile request fails busy exactly when a run is already in
flight against the dataset, and a request that fails busy leaves the whole
state, in particular the previously published MatchResult set and summary,
unchanged, so it neither interleaves with nor corrupts the in-progress run
and its output. -/
theorem reconcile_busy_guard (tol : Tolerances) (s : ServerState) :
    ((handleReconcileRequest tol s).1 = ReconcileResponse.busy ↔
        s.reconcileInFlight = true)
    ∧ (s.reconcileInFlight = true → (handleReconcileRequest tol s).2 = s) := by
  by_cases hf : s.reconcileInFlight = true
  · simp [handleReconcileRequest, hf]
  · simp [handleReconcileRequest, hf]

/-- Example state with a reconciliation run in flight. -/
def busyStateEx : ServerState :=
  { books := [bEx], twob := [tEx], published := none,
    reconcileInFlight := true }

theorem reconcile_busy_guard_witness :
    (handleReconcileRequest tolEx busyStateEx).1 = ReconcileResponse.busy ∧
    (handleReconcileRequest tolEx busyStateEx).2 = busyStateEx :=
  ⟨(reconcile_busy_guard tolEx busyStateEx).1.mpr rfl,
    (reconcile_busy_guard tolEx busyStateEx).2 rfl⟩

/-- C9: export fails with the export error exactly when no reconciliation
result has been published yet; whenever a published result set exists,
export succeeds and its document is built from exactly the currently
published results and summary. -/
theorem export_iff_published (s : ServerState) :
    (generateExport s = Except.error ExportFailure.exportError ↔
        s.published = none)
    ∧ (∀ rs sm, s.published = some (rs, sm) →
        generateExport s
          = Except.ok { summary_section := sm, detail_section := rs }) := by
  cases hp : s.published with
  | none => simp [generateExport, hp]
  | some p =>
    constructor
    · simp [generateExport, hp]
    · intro rs sm hsome
      have hps := Option.some.inj hsome
      subst hps
      simp [generateExport, hp]

/-- Example state holding a published result set. -/
def publishedStateEx : ServerState :=
  { books := [], twob := [], published := some ([], summarize []),
    reconcileInFlight := false }

theorem export_iff_published_witness :
    generateExport publishedStateEx
      = Except.ok { summary_section := summarize [], detail_section := [] } :=
  (export_iff_published publishedStateEx).2 [] (summarize []) rfl

/-- C10: the client-side manual entry check accepts any gstin of exactly 15
characters, performing no trimming and no character-class test, so a
15-character gstin holding punctuation or surrounding whitespace passes the
gstin check, passes the whole form whenever the other field checks pass,
and is sent to the server uppercased; any rejection of such a value is left
to the server. -/
theorem manual_gstin_length_only (f : FormData) (h15 : f.gstin.length = 15) :
    gstinFieldError f = false
    ∧ (submitPayload f).gstin = strUpper f.gstin
    ∧ (invoiceNumberFieldError f = false → invoiceDateFieldError f = false →
        invoiceAmountFieldError f = false → validateForm f = true) := by
  have hne : f.gstin ≠ "" := by
    intro he
    rw [he] at h15
    exact absurd h15 (by decide)
  have hgerr : gstinFieldError f = false := by
    simp [gstinFieldError, hne, h15]
  refine ⟨hgerr, rfl, ?_⟩
  intro h1 h2 h3
  simp [validateForm, hgerr, h1, h2, h3]

/-- Example form whose gstin has 15 characters including spaces and
punctuation outside the A-Z 0-9 class, with the other fields valid. -/
def formEx : FormData :=
  { gstin := " 27-aaa@00 z5!#"
    invoice_number := " INV001 "
    invoice_date := "2024-01-15"
    invoice_amount := "100.50"
    cgst := "9"
    sgst := "9"
    igst := ""
    vendor_name := "Acme" }

theorem manual_gstin_length_only_witness :
    gstinFieldError formEx = false
    ∧ (submitPayload formEx).gstin = strUpper formEx.gstin
    ∧ validateForm formEx = true := by
  have h := manual_gstin_length_only formEx (by decide)
  exact ⟨h.1, h.2.1, h.2.2 (by decide) (by decide) (by decide)⟩

end GSTRecon
